import Mathlib

/-!
# Verification of the repomix MCP server request pipeline

Shallow embedding of `src/index.ts` of the repomix-mcp repository: the
access guard (`isPathAllowed`), the tool dispatcher, command construction,
the estimate / retrieval branches and the temporary-file cleanup logic of
the `CallToolRequestSchema` handler.

Effectful operations (`realpath`, `exec`, `stat`, `readFile`, `rm`,
`os.tmpdir`, `crypto.randomBytes`) are modelled by an explicit environment
record supplying each call's outcome; `Except`/`Option` model promise
rejection.  JavaScript string-library functions used by the source
(`String.prototype.startsWith`, `Array.prototype.join`, `path.relative`,
`path.join`, `Buffer.toString('hex')`, `Number.prototype.toFixed`,
`Number.prototype.toLocaleString`) are modelled by executable Lean
functions over `List Char` / `Nat`.
-/

namespace RepomixMCP

/-- Output format style: the fixed 3-value enumeration of the zod schema
(`src/index.ts:20`). -/
inductive Style
  | xml
  | markdown
  | plain
deriving DecidableEq, Repr

/-- The CLI spelling of a style value. -/
def Style.toStr : Style → String
  | .xml => "xml"
  | .markdown => "markdown"
  | .plain => "plain"

/-- The validated argument record of `RepomixArgsSchema`
(`src/index.ts:18-25`).  Every field is optional.  `include` is a Lean
keyword, so that field and its sibling are named `includeGlob` and
`ignoreGlob`. -/
structure RepomixArgs where
  path : Option String
  style : Option Style
  compress : Option Bool
  includeGlob : Option String
  ignoreGlob : Option String
  remote : Option String
deriving DecidableEq, Repr

/-- JavaScript truthiness of an optional string (`if (args.path)â€¦`):
`undefined` and the empty string are falsy. -/
def truthyStr : Option String → Bool
  | some s => !(s == "")
  | none => false

/-- JavaScript truthiness of an optional boolean (`if (args.compress)`). -/
def truthyBool : Option Bool → Bool
  | some b => b
  | none => false

/-- Models JavaScript `String.prototype.startsWith` (used at
`src/index.ts:63`): the pattern's character sequence is a prefix of the
string's. -/
def jsStartsWith (s pat : String) : Bool :=
  pat.data.isPrefixOf s.data

/-- Split a character list into `/`-separated nonempty segments
(accumulator holds the current segment reversed). -/
def splitSegAux : List Char → List Char → List String
  | [], cur => if cur = [] then [] else [String.mk cur.reverse]
  | '/' :: rest, cur =>
      if cur = [] then splitSegAux rest []
      else String.mk cur.reverse :: splitSegAux rest []
  | c :: rest, cur => splitSegAux rest (c :: cur)

/-- The nonempty `/`-separated segments of a POSIX path. -/
def splitPath (p : String) : List String :=
  splitSegAux p.data []

/-- Drop the longest common prefix of two segment lists, returning the two
remainders. -/
def dropCommonPrefix : List String → List String → List String × List String
  | a :: as, b :: bs =>
      if a = b then dropCommonPrefix as bs else (a :: as, b :: bs)
  | as, bs => (as, bs)

/-- Join strings with a separator; models `Array.prototype.join` /
`String.intercalate`. -/
def joinSep (sep : String) : List String → String
  | [] => ""
  | [x] => x
  | x :: y :: xs => x ++ sep ++ joinSep sep (y :: xs)

/-- Models Node's `path.relative(from, to)` for already-absolute,
already-normalised POSIX paths (which is how `isPathAllowed` calls it: both
arguments are `realpath` outputs): drop the common segment prefix, then one
`..` for every remaining `from` segment followed by the remaining `to`
segments. -/
def nodeRelative (fromPath toPath : String) : String :=
  let p := dropCommonPrefix (splitPath fromPath) (splitPath toPath)
  joinSep "/" (List.replicate p.1.length ".." ++ p.2)

/-- Models Node's `path.join(dir, name)` for a directory without a trailing
slash and a relative file name, the only way the source calls it
(`src/index.ts:196`). -/
def nodeJoin (dir name : String) : String :=
  dir ++ "/" ++ name

/-- Embedding of `RepomixMCPServer.isPathAllowed` (`src/index.ts:53-68`).
`resolveReal s` models the value of `await realpath(resolve(s))`; `none`
models a thrown resolution error (non-existent path, permission error,
invalid path), which the `catch` turns into `false`.  The function is
total: no input raises. -/
def isPathAllowed (resolveReal : String → Option String)
    (allowedDirectory targetPath : String) : Bool :=
  match resolveReal targetPath, resolveReal allowedDirectory with
  | some absolutePath, some allowedPath =>
      let relativePath := nodeRelative allowedPath absolutePath
      !(jsStartsWith relativePath "..") && !(jsStartsWith relativePath "/")
  | _, _ => false

/-- The claim-level notion "begins with a parent-directory traversal
segment": the string is `..` itself or starts with the segment `../`. -/
def beginsWithParentSegment (s : String) : Bool :=
  s == ".." || jsStartsWith s "../"

/-- Hex digit characters, as produced by `Buffer.toString('hex')`
(lowercase). -/
def hexDigit (n : Nat) : Char :=
  "0123456789abcdef".data.getD n 'x'

/-- One byte as two lowercase hex characters. -/
def byteToHex (b : Nat) : List Char :=
  [hexDigit (b / 16), hexDigit (b % 16)]

/-- Models `randomBytes(k).toString('hex')`: each byte as two lowercase hex
digits. -/
def bytesToHex (bs : List Nat) : String :=
  String.mk (List.flatten (bs.map byteToHex))

/-- The temporary file name `repomix-<hex>.txt` built at
`src/index.ts:195` from the 8 random bytes. -/
def tempFileName (bytes : List Nat) : String :=
  "repomix-" ++ bytesToHex bytes ++ ".txt"

/-- The temporary file path `join(tmpdir(), tempFileName)`
(`src/index.ts:196`). -/
def tempFilePath (tmpdir : String) (bytes : List Nat) : String :=
  nodeJoin tmpdir (tempFileName bytes)

/-- Embedding of the `commandParts` construction (`src/index.ts:168-198`):
`['npx','repomix']`, then each truthy argument in source order, then always
`'--output', tempFile`.  `include`/`ignore` values are wrapped in double
quotes; `path`, `style`, `remote` values are interpolated verbatim. -/
def commandParts (args : RepomixArgs) (tempFile : String) : List String :=
  ["npx", "repomix"]
  ++ (if truthyStr args.path then [args.path.getD ""] else [])
  ++ (match args.style with
      | some s => ["--style", s.toStr]
      | none => [])
  ++ (if truthyBool args.compress then ["--compress"] else [])
  ++ (if truthyStr args.includeGlob then
        ["--include", "\"" ++ args.includeGlob.getD "" ++ "\""] else [])
  ++ (if truthyStr args.ignoreGlob then
        ["--ignore", "\"" ++ args.ignoreGlob.getD "" ++ "\""] else [])
  ++ (if truthyStr args.remote then ["--remote", args.remote.getD ""] else [])
  ++ ["--output", tempFile]

/-- The executed command string `commandParts.join(' ')`
(`src/index.ts:200`). -/
def commandString (args : RepomixArgs) (tempFile : String) : String :=
  joinSep " " (commandParts args tempFile)

/-- Models JavaScript `(num/den).toFixed(2)` for natural `num` and a
power-of-two `den` (the source divides by 1024 and 1024·1024, so the double
`num/den` is exact for any realistic size): the integer nearest to
`100·num/den`, ties towards the larger integer, printed with two decimal
digits. -/
def toFixed2 (num den : Nat) : String :=
  let n := (200 * num + den) / (2 * den)
  toString (n / 100) ++ "." ++ (if n % 100 < 10 then "0" else "") ++
    toString (n % 100)

/-- Embedding of `Math.ceil(sizeInBytes / 4)` (`src/index.ts:215`): the
byte size is exact as a double, so this is the exact rational ceiling. -/
def estimatedTokens (sizeInBytes : Nat) : Nat :=
  (⌈(sizeInBytes : ℚ) / 4⌉).toNat

/-- Insert a `,` after every three characters of a reversed digit list;
helper for `localeString`. -/
def insertCommasRev : List Char → List Char
  | a :: b :: c :: d :: rest => a :: b :: c :: ',' :: insertCommasRev (d :: rest)
  | l => l

/-- Models `Number.prototype.toLocaleString()` for a natural number under
the default `en-US`-style grouping: decimal digits with a comma every three
digits. -/
def localeString (n : Nat) : String :=
  String.mk (insertCommasRev (toString n).data.reverse).reverse

/-- The success text of the estimate branch (`src/index.ts:228`), built
from the statted byte size and the truthiness of the request's `compress`
argument. -/
def estimateText (sizeInBytes : Nat) (compressTruthy : Bool) : String :=
  "Repomix output size estimate:\n- Size: " ++ toFixed2 sizeInBytes 1024 ++
  " KB (" ++ toFixed2 sizeInBytes (1024 * 1024) ++
  " MB)\n- Estimated tokens: ~" ++ localeString (estimatedTokens sizeInBytes) ++
  "\n- Compression: " ++ (if compressTruthy then "enabled" else "disabled") ++
  "\n\nUse the repomix tool with these same parameters to retrieve the actual content."

/-- Environment of one request: the outcome of every effectful call the
handler can make.  `execResult` is `.ok stderr` when `execAsync` resolves
(carrying the captured standard error) and `.error message` when it rejects
(non-zero exit or launch failure); `statResult` / `readResult` likewise
model `stat` / `readFile`; `rmFails` makes every `rm` call reject. -/
structure Env where
  resolveReal : String → Option String
  allowedDirectory : String
  tmpdir : String
  randBytes : List Nat
  execResult : Except String String
  statResult : Except String Nat
  readResult : Except String String
  rmFails : Bool

/-- Observable effects of one request, in order. -/
inductive Event
  | guardCheck (target : String)
  | execCmd (cmd : String)
  | statCall
  | readCall
  | rmCall (ok : Bool)
deriving DecidableEq, Repr

/-- A content result of the handler: one text block plus the error flag
(absent flag modelled as `false`). -/
structure CallResult where
  text : String
  isError : Bool
deriving DecidableEq, Repr

/-- Protocol-level (raised) errors of the dispatcher, distinct from any
error-flagged `CallResult`. -/
inductive ProtoError
  | unknownTool (name : String)
  | invalidArgs
deriving DecidableEq, Repr

/-- The tool names advertised by the `ListToolsRequestSchema` handler
(`src/index.ts:74` and `src/index.ts:108`). -/
def advertisedToolNames : List String :=
  ["repomix", "repomix-estimate"]

/-- The `rm(tempFilePath, \x7b force: true \x7d)` attempt: the event records
whether the deletion succeeded; the surrounding `catch` ignores failure. -/
def rmEvent (env : Env) : Event :=
  .rmCall (!env.rmFails)

/-- The execution / retrieval part of the handler (`src/index.ts:200-284`):
run the command, then in estimate mode stat-compute-cleanup-return, in
retrieval mode read-cleanup-return; every failure path performs a
best-effort `rm` and yields an error-flagged result wrapped by the outer
`catch`.  The local `stderr` variable starts empty and is assigned only
after `execAsync` resolves. -/
def execPhase (isEstimate : Bool) (args : RepomixArgs) (env : Env) :
    Except ProtoError CallResult × List Event :=
  let tempFile := tempFilePath env.tmpdir env.randBytes
  let cmd := commandString args tempFile
  match env.execResult with
  | .error m =>
      (.ok { text := "Error executing repomix: " ++ m, isError := true },
       [.execCmd cmd, rmEvent env])
  | .ok stderr =>
      if isEstimate then
        match env.statResult with
        | .ok sizeInBytes =>
            (.ok { text := estimateText sizeInBytes (truthyBool args.compress),
                   isError := false },
             [.execCmd cmd, .statCall, rmEvent env])
        | .error m =>
            let thrown := "Failed to estimate size: " ++ m ++
              (if stderr == "" then "" else "\nRepomix stderr: " ++ stderr)
            (.ok { text := "Error executing repomix: " ++ thrown ++
                     (if stderr == "" then "" else "\nStderr: " ++ stderr),
                   isError := true },
             [.execCmd cmd, .statCall, rmEvent env, rmEvent env])
      else
        match env.readResult with
        | .ok fileContents =>
            (.ok { text := fileContents, isError := false },
             [.execCmd cmd, .readCall, rmEvent env])
        | .error m =>
            let thrown := "Failed to read output file: " ++ m ++
              (if stderr == "" then "" else "\nRepomix stderr: " ++ stderr)
            (.ok { text := "Error executing repomix: " ++ thrown ++
                     (if stderr == "" then "" else "\nStderr: " ++ stderr),
                   isError := true },
             [.execCmd cmd, .readCall, rmEvent env])

/-- The access-denied error-flagged result (`src/index.ts:156-164`). -/
def accessDeniedResult (path boundary : String) : CallResult :=
  { text := "Access denied: Path \"" ++ path ++
      "\" is outside the allowed directory (" ++ boundary ++ ")",
    isError := true }

/-- Embedding of the `CallToolRequestSchema` handler
(`src/index.ts:144-285`): unknown-tool check, schema validation (`rawValid`
models whether `RepomixArgsSchema.parse` succeeds), the security check for
local paths, then `execPhase`.  The result pairs the protocol outcome with
the ordered event trace. -/
def handleCall (name : String) (rawValid : Bool) (args : RepomixArgs)
    (env : Env) : Except ProtoError CallResult × List Event :=
  if !(name == "repomix") && !(name == "repomix-estimate") then
    (.error (.unknownTool name), [])
  else if !rawValid then
    (.error .invalidArgs, [])
  else
    let isEstimate := name == "repomix-estimate"
    if truthyStr args.path && !truthyStr args.remote then
      if !isPathAllowed env.resolveReal env.allowedDirectory
          (args.path.getD "") then
        (.ok (accessDeniedResult (args.path.getD "") env.allowedDirectory),
         [.guardCheck (args.path.getD "")])
      else
        let r := execPhase isEstimate args env
        (r.1, .guardCheck (args.path.getD "") :: r.2)
    else
      execPhase isEstimate args env

/-- Substring containment between strings, at the character-sequence
level. -/
def containsStr (s pat : String) : Prop :=
  pat.data <:+: s.data

instance (s pat : String) : Decidable (containsStr s pat) :=
  List.decidableInfix pat.data s.data

/-- A simplified POSIX-shell field splitter covering the characters the
constructed command can contain: fields split on unquoted spaces, double
quotes toggle quoting and are removed.  Used to express whether a value
reaches the external tool as a single argument. -/
def shellFieldsAux : List Char → Bool → List Char → List (List Char)
  | [], _, cur => if cur = [] then [] else [cur.reverse]
  | c :: rest, inQ, cur =>
      if c = '"' then shellFieldsAux rest (!inQ) cur
      else if c = ' ' && !inQ then
        (if cur = [] then shellFieldsAux rest false []
         else cur.reverse :: shellFieldsAux rest false [])
      else shellFieldsAux rest inQ (c :: cur)

/-- The argument words a shell would pass to the external tool for a given
command string. -/
def shellTokens (s : String) : List String :=
  (shellFieldsAux s.data false []).map String.mk

/-! ## Helper lemmas -/

theorem jsStartsWith_iff {s pat : String} :
    jsStartsWith s pat = true ↔ pat.data <+: s.data := by
  simp [jsStartsWith, List.isPrefixOf_iff_prefix]

theorem jsStartsWith_of_parentSegment {s : String}
    (h : beginsWithParentSegment s = true) : jsStartsWith s ".." = true := by
  unfold beginsWithParentSegment at h
  rw [Bool.or_eq_true] at h
  rcases h with h | h
  · have hs : s = ".." := eq_of_beq h
    subst hs
    decide
  · rw [jsStartsWith_iff] at h ⊢
    exact List.IsPrefix.trans (by decide) h

theorem truthyBool_eq_true_iff {c : Option Bool} :
    truthyBool c = true ↔ c = some true := by
  rcases c with _ | b
  · simp [truthyBool]
  · rcases b <;> simp [truthyBool]

/-! ## C1: the access guard is sound and fail-closed -/

/-- C1: `isPathAllowed` returns `true` only if the symlink-resolved
absolute path and the resolved boundary both exist and their relative path
neither begins with a parent-directory traversal segment nor is an
absolute path; and whenever resolution of either side fails it returns
`false` (the function is total, so it never raises). -/
theorem c1_isPathAllowed_sound (resolveReal : String → Option String)
    (allowed target : String) :
    ((resolveReal target = none ∨ resolveReal allowed = none) →
        isPathAllowed resolveReal allowed target = false)
    ∧ (isPathAllowed resolveReal allowed target = true →
        ∃ absolutePath allowedPath,
          resolveReal target = some absolutePath ∧
          resolveReal allowed = some allowedPath ∧
          beginsWithParentSegment (nodeRelative allowedPath absolutePath) = false ∧
          jsStartsWith (nodeRelative allowedPath absolutePath) "/" = false) := by
  constructor
  · intro h
    rcases hT : resolveReal target with _ | a
    · simp [isPathAllowed, hT]
    · rcases hA : resolveReal allowed with _ | b
      · simp [isPathAllowed, hT, hA]
      · rcases h with h | h
        · rw [hT] at h
          exact absurd h (by simp)
        · rw [hA] at h
          exact absurd h (by simp)
  · intro h
    rcases hT : resolveReal target with _ | a
    · rw [isPathAllowed] at h
      rw [hT] at h
      simp at h
    · rcases hA : resolveReal allowed with _ | b
      · rw [isPathAllowed] at h
        rw [hT, hA] at h
        simp at h
      · rw [isPathAllowed] at h
        rw [hT, hA] at h
        simp only [Bool.and_eq_true, Bool.not_eq_true'] at h
        refine ⟨a, b, rfl, rfl, ?_, h.2⟩
        by_contra hb
        have hb2 : beginsWithParentSegment (nodeRelative b a) = true := by
          revert hb
          cases beginsWithParentSegment (nodeRelative b a) <;> simp
        have := jsStartsWith_of_parentSegment hb2
        rw [h.1] at this
        exact Bool.false_ne_true this

/-- Witness for C1: a path whose resolution fails is denied, and an
allowed path yields a relative path with neither escape shape. -/
theorem c1_isPathAllowed_sound_witness :
    isPathAllowed (fun _ => (none : Option String)) "/w" "/etc" = false ∧
    ∃ absolutePath allowedPath,
      (fun s : String => some s) "/w/sub" = some absolutePath ∧
      (fun s : String => some s) "/w" = some allowedPath ∧
      beginsWithParentSegment (nodeRelative allowedPath absolutePath) = false ∧
      jsStartsWith (nodeRelative allowedPath absolutePath) "/" = false :=
  ⟨(c1_isPathAllowed_sound (fun _ => none) "/w" "/etc").1 (Or.inl rfl),
   (c1_isPathAllowed_sound (fun s => some s) "/w" "/w/sub").2 (by decide)⟩

/-! ## C9: the prefix check rejects an in-boundary entry named `..cache` -/

/-- C9: because the escape test is a string-prefix check, the entry
`..cache` directly under the boundary — strictly inside it, as witnessed
by the proper segment-prefix relation — yields the relative path
`..cache`, which starts with `..` and is therefore denied. -/
theorem c9_dotdot_name_rejected :
    isPathAllowed (fun s => some s) "/home/user/project"
        "/home/user/project/..cache" = false
    ∧ splitPath "/home/user/project" <+: splitPath "/home/user/project/..cache"
    ∧ splitPath "/home/user/project" ≠ splitPath "/home/user/project/..cache"
    ∧ nodeRelative "/home/user/project" "/home/user/project/..cache" = "..cache"
    ∧ jsStartsWith "..cache" ".." = true
    ∧ beginsWithParentSegment "..cache" = false := by
  refine ⟨by decide, ⟨["..cache"], by decide⟩, by decide, by decide, by decide, by decide⟩

/-! ## C4: estimate-branch numbers -/

theorem estimatedTokens_eq (n : Nat) : estimatedTokens n = (n + 3) / 4 := by
  unfold estimatedTokens
  have hd := Nat.div_add_mod (n + 3) 4
  have hm : (n + 3) % 4 < 4 := Nat.mod_lt _ (by norm_num)
  set k := (n + 3) / 4 with hk
  have hk1 : n ≤ 4 * k := by omega
  have hk2 : 4 * k < n + 4 := by omega
  have hceil : (⌈(n : ℚ) / 4⌉ : ℤ) = (k : ℕ) := by
    rw [Int.ceil_eq_iff]
    have c1 : ((4 * k : ℕ) : ℚ) < ((n + 4 : ℕ) : ℚ) := by exact_mod_cast hk2
    have c2 : ((n : ℕ) : ℚ) ≤ ((4 * k : ℕ) : ℚ) := by exact_mod_cast hk1
    push_cast at c1 c2 ⊢
    constructor
    · rw [lt_div_iff₀ (by norm_num : (0:ℚ) < 4)]
      linarith
    · rw [div_le_iff₀ (by norm_num : (0:ℚ) < 4)]
      linarith
  rw [hceil]
  exact Int.toNat_natCast k

/-- The arguments of the C4 scenario: `path "."`, `compress true`. -/
def c4Args : RepomixArgs :=
  { path := some ".", style := none, compress := some true,
    includeGlob := none, ignoreGlob := none, remote := none }

/-- The environment of the C4 scenario: `.` resolves to the boundary, the
tool succeeds, and the artifact stats at 5396 bytes. -/
def c4Env : Env :=
  { resolveReal := fun s => if s == "." then some "/w" else some s,
    allowedDirectory := "/w", tmpdir := "/tmp",
    randBytes := [0, 0, 0, 0, 0, 0, 0, 0], execResult := .ok "",
    statResult := .ok 5396, readResult := .ok "", rmFails := false }

/-- The estimate text of the C4 scenario. -/
def c4Text : String :=
  "Repomix output size estimate:\n- Size: 5.27 KB (0.01 MB)\n- Estimated tokens: ~1,349\n- Compression: enabled\n\nUse the repomix tool with these same parameters to retrieve the actual content."

set_option maxRecDepth 100000 in
/-- C4: the estimate branch reports `ceil(N / 4)` tokens for an `N`-byte
artifact, the KB and MB figures are `N/1024` and `N/1048576` rounded to
two decimals, the compression line reflects the request's `compress`
argument, and the concrete 5396-byte `compress: true` scenario yields the
advertised `5.27 KB (0.01 MB)`, `~1,349` tokens, `Compression: enabled`
text. -/
theorem c4_estimate_numbers :
    (∀ n : Nat, estimatedTokens n = (n + 3) / 4)
    ∧ (∀ (n : Nat) (c : Option Bool),
        (execPhase true { c4Args with compress := c }
            { c4Env with statResult := .ok n }).1 =
          .ok { text := estimateText n (truthyBool c), isError := false })
    ∧ (handleCall "repomix-estimate" true c4Args c4Env).1 =
        .ok { text := c4Text, isError := false }
    ∧ containsStr c4Text "Size: 5.27 KB (0.01 MB)"
    ∧ containsStr c4Text "Estimated tokens: ~1,349"
    ∧ containsStr c4Text "Compression: enabled" := by
  have htext : estimateText 5396 true = c4Text := by
    have htok : estimatedTokens 5396 = 1349 := by rw [estimatedTokens_eq]
    unfold estimateText c4Text
    rw [htok]
    decide
  refine ⟨estimatedTokens_eq, fun n c => rfl, ?_, by decide, by decide, by decide⟩
  have hcall : (handleCall "repomix-estimate" true c4Args c4Env).1 =
      .ok { text := estimateText 5396 true, isError := false } := rfl
  rw [hcall, htext]

/-! ## C8: the estimate result is content-independent -/

/-- C8: for artifacts of equal byte size under requests with the same
`compress` argument, the successful estimate result is identical — it is
`estimateText` of the size and the compress truthiness, independent of the
artifact's contents, of every other argument and of the rest of the
environment — and the estimate branch never performs the content read. -/
theorem c8_estimate_content_independent (n : Nat) (c : Option Bool)
    (args₁ args₂ : RepomixArgs) (env₁ env₂ : Env)
    (hc₁ : args₁.compress = c) (hc₂ : args₂.compress = c)
    (hs₁ : env₁.statResult = .ok n) (hs₂ : env₂.statResult = .ok n)
    (he₁ : ∃ s, env₁.execResult = .ok s) (he₂ : ∃ s, env₂.execResult = .ok s) :
    (execPhase true args₁ env₁).1 =
      .ok { text := estimateText n (truthyBool c), isError := false }
    ∧ (execPhase true args₁ env₁).1 = (execPhase true args₂ env₂).1
    ∧ Event.readCall ∉ (execPhase true args₁ env₁).2 := by
  obtain ⟨s₁, he₁⟩ := he₁
  obtain ⟨s₂, he₂⟩ := he₂
  have h₁ : (execPhase true args₁ env₁).1 =
      .ok { text := estimateText n (truthyBool c), isError := false } := by
    simp [execPhase, he₁, hs₁, hc₁]
  have h₂ : (execPhase true args₂ env₂).1 =
      .ok { text := estimateText n (truthyBool c), isError := false } := by
    simp [execPhase, he₂, hs₂, hc₂]
  refine ⟨h₁, h₂ ▸ h₁, ?_⟩
  simp [execPhase, he₁, hs₁, rmEvent]

/-- First environment of the C8 witness: a 100-byte artifact with
contents `contents A`. -/
def c8EnvA : Env :=
  { c4Env with statResult := .ok 100, readResult := .ok "contents A" }

/-- Second environment of the C8 witness: same size, different contents,
different stderr and a different temporary directory. -/
def c8EnvB : Env :=
  { c4Env with
    statResult := .ok 100
    readResult := .ok "contents B"
    execResult := .ok "warn"
    tmpdir := "/var/tmp" }

/-- Second argument record of the C8 witness: same `compress`, different
style. -/
def c8ArgsB : RepomixArgs :=
  { c4Args with style := some Style.xml }

/-- Witness for C8: two environments whose artifacts have different
contents, different stderr, different styles and different temp names but
the same 100-byte size and the same `compress` produce identical results
without reading the artifact. -/
theorem c8_estimate_content_independent_witness :
    (execPhase true c4Args c8EnvA).1 = (execPhase true c8ArgsB c8EnvB).1
    ∧ Event.readCall ∉ (execPhase true c4Args c8EnvA).2 := by
  have h := c8_estimate_content_independent 100 (some true) c4Args c8ArgsB
    c8EnvA c8EnvB rfl rfl rfl rfl ⟨"", rfl⟩ ⟨"warn", rfl⟩
  exact ⟨h.2.1, h.2.2⟩

/-! ## C2: unconditional best-effort cleanup -/

theorem execPhase_rm_mem (isEstimate : Bool) (args : RepomixArgs) (env : Env) :
    Event.rmCall (!env.rmFails) ∈ (execPhase isEstimate args env).2 := by
  rcases hE : env.execResult with m | stderr
  · simp [execPhase, hE, rmEvent]
  · rcases isEstimate
    · rcases hR : env.readResult with m | fileContents <;>
        simp [execPhase, hE, hR, rmEvent]
    · rcases hS : env.statResult with m | sizeInBytes <;>
        simp [execPhase, hE, hS, rmEvent]

theorem execPhase_fst_rmFails (isEstimate : Bool) (args : RepomixArgs)
    (env : Env) (b : Bool) :
    (execPhase isEstimate args { env with rmFails := b }).1 =
      (execPhase isEstimate args env).1 := by
  rcases hE : env.execResult with m | stderr
  · simp [execPhase, hE]
  · rcases isEstimate
    · rcases hR : env.readResult with m | fileContents <;>
        simp [execPhase, hE, hR]
    · rcases hS : env.statResult with m | sizeInBytes <;>
        simp [execPhase, hE, hS]

theorem execPhase_no_guard (isEstimate : Bool) (args : RepomixArgs)
    (env : Env) (t : String) :
    Event.guardCheck t ∉ (execPhase isEstimate args env).2 := by
  rcases hE : env.execResult with m | stderr
  · simp [execPhase, hE, rmEvent]
  · rcases isEstimate
    · rcases hR : env.readResult with m | fileContents <;>
        simp [execPhase, hE, hR, rmEvent]
    · rcases hS : env.statResult with m | sizeInBytes <;>
        simp [execPhase, hE, hS, rmEvent]

/-- C2: whenever a request reaches the execution unit (its trace holds an
`execCmd` event), the temporary artifact is `rm`ed before the handler
returns — successfully whenever `rm` itself does not fail — in every
outcome (estimate success, estimate stat failure, retrieval success,
retrieval read failure, subprocess launch failure or non-zero exit), and a
failing `rm` is swallowed: the returned result is the same whether or not
`rm` fails. -/
theorem c2_cleanup (name : String) (rawValid : Bool) (args : RepomixArgs)
    (env : Env)
    (hexec : ∃ cmd, Event.execCmd cmd ∈ (handleCall name rawValid args env).2) :
    Event.rmCall (!env.rmFails) ∈ (handleCall name rawValid args env).2
    ∧ (env.rmFails = false →
        Event.rmCall true ∈ (handleCall name rawValid args env).2)
    ∧ (∀ b, (handleCall name rawValid args { env with rmFails := b }).1 =
        (handleCall name rawValid args env).1) := by
  obtain ⟨cmd, hmem⟩ := hexec
  rcases rawValid with _ | _
  · rcases h1 : (!(name == "repomix") && !(name == "repomix-estimate")) with _ | _
    · rw [show handleCall name false args env = (.error .invalidArgs, [])
          from by simp [handleCall, h1]] at hmem
      simp at hmem
    · rw [show handleCall name false args env = (.error (.unknownTool name), [])
          from by simp [handleCall, h1]] at hmem
      simp at hmem
  · rcases h1 : (!(name == "repomix") && !(name == "repomix-estimate")) with _ | _
    · rcases h3 : (truthyStr args.path && !truthyStr args.remote) with _ | _
      · have hred : ∀ e : Env, handleCall name true args e =
            execPhase (name == "repomix-estimate") args e := by
          intro e
          simp [handleCall, h1, h3]
        refine ⟨?_, ?_, ?_⟩
        · rw [hred]
          exact execPhase_rm_mem _ args env
        · intro hf
          rw [hred]
          have := execPhase_rm_mem (name == "repomix-estimate") args env
          rw [hf] at this
          exact this
        · intro b
          rw [hred, hred]
          exact execPhase_fst_rmFails _ args env b
      · rcases h4 : isPathAllowed env.resolveReal env.allowedDirectory
            (args.path.getD "") with _ | _
        · rw [show handleCall name true args env =
              (.ok (accessDeniedResult (args.path.getD "") env.allowedDirectory),
               [.guardCheck (args.path.getD "")])
              from by simp [handleCall, h1, h3, h4]] at hmem
          simp at hmem
        · have hred : ∀ e : Env, e.resolveReal = env.resolveReal →
              e.allowedDirectory = env.allowedDirectory →
              handleCall name true args e =
                ((execPhase (name == "repomix-estimate") args e).1,
                 .guardCheck (args.path.getD "") ::
                   (execPhase (name == "repomix-estimate") args e).2) := by
            intro e he1 he2
            simp [handleCall, h1, h3, he1, he2, h4]
          refine ⟨?_, ?_, ?_⟩
          · rw [hred env rfl rfl]
            exact List.mem_cons_of_mem _ (execPhase_rm_mem _ args env)
          · intro hf
            rw [hred env rfl rfl]
            have := execPhase_rm_mem (name == "repomix-estimate") args env
            rw [hf] at this
            exact List.mem_cons_of_mem _ this
          · intro b
            rw [hred env rfl rfl, hred { env with rmFails := b } rfl rfl]
            exact execPhase_fst_rmFails _ args env b
    · rw [show handleCall name true args env = (.error (.unknownTool name), [])
          from by simp [handleCall, h1]] at hmem
      simp at hmem

/-- Witness for C2: a concrete retrieval request that reached execution
performs a successful `rm` before returning. -/
theorem c2_cleanup_witness :
    Event.rmCall true ∈ (handleCall "repomix" true c4Args c4Env).2 := by
  have h := c2_cleanup "repomix" true c4Args c4Env
    ⟨"npx repomix . --compress --output /tmp/repomix-0000000000000000.txt",
     by decide⟩
  exact h.2.1 rfl

/-! ## C3: when the security check runs (JavaScript truthiness) -/

theorem execPhase_no_guard_exists (isEstimate : Bool) (args : RepomixArgs)
    (env : Env) : ¬ ∃ t, Event.guardCheck t ∈ (execPhase isEstimate args env).2 := by
  rintro ⟨t, ht⟩
  exact execPhase_no_guard isEstimate args env t ht

/-- Arguments with both a local path and a remote reference supplied, the
remote reference being the empty string (present but falsy). -/
def c3Args : RepomixArgs :=
  { path := some "/x", style := none, compress := none,
    includeGlob := none, ignoreGlob := none, remote := some "" }

/-- Environment where every path resolution fails. -/
def c3Env : Env :=
  { resolveReal := fun _ => none, allowedDirectory := "/w", tmpdir := "/tmp",
    randBytes := [0, 0, 0, 0, 0, 0, 0, 0], execResult := .ok "",
    statResult := .ok 0, readResult := .ok "", rmFails := false }

/-- C3 counterexample: with both a remote reference and a local path
supplied — the remote being the empty string — the guard IS invoked and an
access-denied result IS produced, because the source tests JavaScript
truthiness (`args.path && !args.remote`), not presence. -/
theorem c3_guard_truthiness_counterexample :
    c3Args.remote.isSome = true ∧ c3Args.path.isSome = true ∧
    (handleCall "repomix" true c3Args c3Env).2 = [.guardCheck "/x"] ∧
    (handleCall "repomix" true c3Args c3Env).1 =
      .ok (accessDeniedResult "/x" "/w") :=
  ⟨rfl, rfl, rfl, rfl⟩

/-- C3 amended: the guard runs exactly when `path` is a non-empty string
and `remote` is absent or empty; when `remote` is non-empty the handler is
exactly the execution unit (no guard event, no access-denied result); on
denial the handler returns an error-flagged result — not a raised error —
whose text contains the denied path and the configured boundary, with no
execution event. -/
theorem c3_guard_dispatch_amended (name : String) (args : RepomixArgs)
    (env : Env) (hname : name = "repomix" ∨ name = "repomix-estimate") :
    ((∃ t, Event.guardCheck t ∈ (handleCall name true args env).2) ↔
        (truthyStr args.path = true ∧ truthyStr args.remote = false))
    ∧ (truthyStr args.remote = true →
        handleCall name true args env =
          execPhase (name == "repomix-estimate") args env)
    ∧ (truthyStr args.path = true → truthyStr args.remote = false →
        isPathAllowed env.resolveReal env.allowedDirectory
            (args.path.getD "") = false →
        handleCall name true args env =
          (.ok (accessDeniedResult (args.path.getD "") env.allowedDirectory),
           [.guardCheck (args.path.getD "")]))
    ∧ (∀ p b, containsStr (accessDeniedResult p b).text p ∧
        containsStr (accessDeniedResult p b).text b) := by
  have h1 : (!(name == "repomix") && !(name == "repomix-estimate")) = false := by
    rcases hname with h | h <;> subst h <;> decide
  refine ⟨?_, ?_, ?_, ?_⟩
  · rcases h3 : (truthyStr args.path && !truthyStr args.remote) with _ | _
    · constructor
      · intro hg
        rw [show handleCall name true args env =
            execPhase (name == "repomix-estimate") args env
            from by simp [handleCall, h1, h3]] at hg
        exact absurd hg (execPhase_no_guard_exists _ args env)
      · intro hpr
        rw [hpr.1, hpr.2] at h3
        simp at h3
    · constructor
      · intro _
        rcases hP : truthyStr args.path with _ | _
        · rw [hP] at h3
          simp at h3
        · rcases hR : truthyStr args.remote with _ | _
          · exact ⟨rfl, rfl⟩
          · rw [hP, hR] at h3
            simp at h3
      · intro _
        rcases h4 : isPathAllowed env.resolveReal env.allowedDirectory
            (args.path.getD "") with _ | _
        · exact ⟨args.path.getD "", by
            rw [show handleCall name true args env =
                (.ok (accessDeniedResult (args.path.getD "")
                    env.allowedDirectory),
                 [.guardCheck (args.path.getD "")])
                from by simp [handleCall, h1, h3, h4]]
            simp⟩
        · exact ⟨args.path.getD "", by
            rw [show handleCall name true args env =
                ((execPhase (name == "repomix-estimate") args env).1,
                 .guardCheck (args.path.getD "") ::
                   (execPhase (name == "repomix-estimate") args env).2)
                from by simp [handleCall, h1, h3, h4]]
            simp⟩
  · intro hr
    have h3 : (truthyStr args.path && !truthyStr args.remote) = false := by
      rw [hr]
      simp
    simp [handleCall, h1, h3]
  · intro hp hr h4
    have h3 : (truthyStr args.path && !truthyStr args.remote) = true := by
      rw [hp, hr]
      simp
    simp [handleCall, h1, h3, h4]
  · intro p b
    constructor
    · exact ⟨"Access denied: Path \"".data,
        ("\" is outside the allowed directory (" ++ b ++ ")").data,
        by simp [accessDeniedResult, String.data_append]⟩
    · exact ⟨("Access denied: Path \"" ++ p ++
          "\" is outside the allowed directory (").data, ")".data,
        by simp [accessDeniedResult, String.data_append]⟩

/-- Witness for the amended C3: a concrete denied local-path call yields
the access-denied error-flagged result and only the guard event. -/
theorem c3_guard_dispatch_amended_witness :
    handleCall "repomix" true
      { path := some "/x", style := none, compress := none,
        includeGlob := none, ignoreGlob := none, remote := none } c3Env =
      (.ok (accessDeniedResult "/x" "/w"), [.guardCheck "/x"]) := by
  have h := c3_guard_dispatch_amended "repomix"
    { path := some "/x", style := none, compress := none,
      includeGlob := none, ignoreGlob := none, remote := none } c3Env
    (Or.inl rfl)
  exact h.2.2.1 (by decide) (by decide) (by decide)

/-! ## C7: advertised operation names and the unknown-tool error -/

/-- C7 counterexample: the advertised operations are named `repomix` and
`repomix-estimate`, not `pack` and `pack-estimate`; calling `pack` raises
the unknown-tool protocol error with an empty trace. -/
theorem c7_tool_names_counterexample :
    advertisedToolNames ≠ ["pack", "pack-estimate"]
    ∧ "pack" ∉ advertisedToolNames
    ∧ handleCall "pack" true c3Args c3Env =
        (.error (.unknownTool "pack"), []) :=
  ⟨by decide, by decide, rfl⟩

/-- C7 amended: the dispatcher advertises exactly the two operations
`repomix` and `repomix-estimate`, and every call naming any other
operation — whether or not its arguments would validate — yields the
raised unknown-tool protocol error (distinct by type from any
error-flagged content result) with an empty event trace: before argument
validation, subprocess execution or any filesystem action. -/
theorem c7_unknown_tool_amended (name : String) (rawValid : Bool)
    (args : RepomixArgs) (env : Env) (h : name ∉ advertisedToolNames) :
    advertisedToolNames = ["repomix", "repomix-estimate"]
    ∧ handleCall name rawValid args env = (.error (.unknownTool name), []) := by
  refine ⟨rfl, ?_⟩
  simp only [advertisedToolNames, List.mem_cons, List.not_mem_nil, or_false,
    not_or] at h
  have h1 : (name == "repomix") = false := by
    rw [beq_eq_false_iff_ne]
    exact h.1
  have h2 : (name == "repomix-estimate") = false := by
    rw [beq_eq_false_iff_ne]
    exact h.2
  simp [handleCall, h1, h2]

/-- Witness for the amended C7: calling the spec's own operation name
`pack-estimate` raises the unknown-tool error without any event. -/
theorem c7_unknown_tool_amended_witness :
    handleCall "pack-estimate" false c3Args c3Env =
      (.error (.unknownTool "pack-estimate"), []) :=
  (c7_unknown_tool_amended "pack-estimate" false c3Args c3Env (by decide)).2

/-! ## C6: stderr in the execution-failure message -/

/-- The subprocess rejection message of the C6 scenario, in Node's
`Command failed: <command>` + newline + stderr shape. -/
def c6Msg : String :=
  "Command failed: npx repomix --output /tmp/repomix-0000000000000000.txt\nglob error"

/-- Arguments of the C6 scenario: none supplied. -/
def c6Args : RepomixArgs :=
  { path := none, style := none, compress := none,
    includeGlob := none, ignoreGlob := none, remote := none }

/-- Environment of the C6 scenario: the subprocess rejects (non-zero exit)
with stderr `glob error` embedded in the rejection message, and the
artifact is absent. -/
def c6Env : Env :=
  { resolveReal := fun s => some s, allowedDirectory := "/w", tmpdir := "/tmp",
    randBytes := [0, 0, 0, 0, 0, 0, 0, 0], execResult := .error c6Msg,
    statResult := .error "no such file", readResult := .error "no such file",
    rmFails := false }

set_option maxRecDepth 100000 in
/-- C6 counterexample: when the tool exits non-zero with stderr
`glob error`, the handler's local `stderr` variable is still empty (it is
assigned only after a successful `execAsync`), so the error-flagged result
text contains `Error executing repomix:` and the raw stderr text — via the
rejection's own message — but NOT the labelled fragment
`Stderr: glob error` that the claim requires. -/
theorem c6_stderr_counterexample :
    (handleCall "repomix" true c6Args c6Env).1 =
      .ok { text := "Error executing repomix: " ++ c6Msg, isError := true }
    ∧ (handleCall "repomix" true c6Args c6Env).2 =
        [.execCmd "npx repomix --output /tmp/repomix-0000000000000000.txt",
         .rmCall true]
    ∧ containsStr ("Error executing repomix: " ++ c6Msg)
        "Error executing repomix:"
    ∧ containsStr ("Error executing repomix: " ++ c6Msg) "glob error"
    ∧ ¬ containsStr ("Error executing repomix: " ++ c6Msg) "Stderr: glob error" :=
  ⟨rfl, rfl, by decide, by decide, by decide⟩

/-- C6 amended: when `execAsync` rejects, the captured-stderr variable is
still empty, so the error-flagged retrieval result is exactly
`Error executing repomix: ` followed by the rejection's own message (no
`Stderr:` suffix); the labelled `Stderr: <text>` fragment appears exactly
when the subprocess succeeded with non-empty stderr and a later step — here
the content read — failed. -/
theorem c6_stderr_amended (m s rm : String) (args : RepomixArgs) (env : Env)
    (hpath : truthyStr args.path = false) :
    ((handleCall "repomix" true args { env with execResult := .error m }).1 =
      .ok { text := "Error executing repomix: " ++ m, isError := true })
    ∧ (s ≠ "" →
        (handleCall "repomix" true args
          { env with execResult := .ok s, readResult := .error rm }).1 =
        .ok { text := "Error executing repomix: Failed to read output file: " ++
                rm ++ "\nRepomix stderr: " ++ s ++ "\nStderr: " ++ s,
              isError := true }) := by
  have h3 : (truthyStr args.path && !truthyStr args.remote) = false := by
    rw [hpath]
    simp
  constructor
  · simp [handleCall, h3, execPhase]
  · intro hs
    have hs2 : (s == "") = false := by
      rw [beq_eq_false_iff_ne]
      exact hs
    simp [handleCall, h3, execPhase, hs2, String.append_assoc]
    rw [← String.append_assoc,
      show ("Error executing repomix: " ++ "Failed to read output file: " : String) =
        "Error executing repomix: Failed to read output file: " from by decide]

/-- Witness for the amended C6: concrete launch-failure and read-failure
outcomes. -/
theorem c6_stderr_amended_witness :
    ((handleCall "repomix" true c6Args { c6Env with execResult := .error "boom" }).1 =
      .ok { text := "Error executing repomix: boom", isError := true })
    ∧ ((handleCall "repomix" true c6Args
          { c6Env with execResult := .ok "warn", readResult := .error "gone" }).1 =
        .ok { text := "Error executing repomix: Failed to read output file: " ++
                "gone" ++ "\nRepomix stderr: " ++ "warn" ++ "\nStderr: " ++ "warn",
              isError := true }) := by
  have h := c6_stderr_amended "boom" "warn" "gone" c6Args c6Env (by decide)
  exact ⟨h.1, h.2 (by decide)⟩

/-! ## C10: the joined command does not preserve unquoted values -/

/-- C10 arguments: a local path containing a space. -/
def c10Args : RepomixArgs :=
  { path := some "my dir", style := none, compress := none,
    includeGlob := none, ignoreGlob := none, remote := none }

/-- C10 fully-populated arguments, showing which values are quoted. -/
def c10AllArgs : RepomixArgs :=
  { path := some "my dir", style := some Style.xml, compress := some true,
    includeGlob := some "a b", ignoreGlob := some "c d", remote := some "r" }

/-- The temporary file path of the C10 scenario. -/
def c10Temp : String := tempFilePath "/tmp" [0, 0, 0, 0, 0, 0, 0, 0]

/-- C10: the command is the parts joined with single spaces; `include` and
`ignore` values are quoted while `path`, `style` and `remote` values are
interpolated verbatim; and for the path `my dir` the shell splits the
command so that the tool receives `my` and `dir` as separate words — the
path value is not among the received words. -/
theorem c10_unquoted_path_splits :
    commandString c10Args c10Temp =
      "npx repomix my dir --output /tmp/repomix-0000000000000000.txt"
    ∧ shellTokens (commandString c10Args c10Temp) =
        ["npx", "repomix", "my", "dir", "--output",
         "/tmp/repomix-0000000000000000.txt"]
    ∧ "my dir" ∉ shellTokens (commandString c10Args c10Temp)
    ∧ commandParts c10AllArgs c10Temp =
        ["npx", "repomix", "my dir", "--style", "xml", "--compress",
         "--include", "\"a b\"", "--ignore", "\"c d\"", "--remote", "r",
         "--output", "/tmp/repomix-0000000000000000.txt"] := by
  refine ⟨by decide, by decide, by decide, by decide⟩

/-! ## C5: command construction -/

theorem styleToStr_ne_compress (st : Style) : Style.toStr st ≠ "--compress" := by
  cases st <;> decide

theorem quoted_ne_compress (v : String) : "\"" ++ v ++ "\"" ≠ "--compress" := by
  intro h
  have hd := congrArg String.data h
  rw [String.data_append, String.data_append] at hd
  rw [show ("\"" : String).data = ['"'] from rfl] at hd
  rw [show ("--compress" : String).data =
      ['-', '-', 'c', 'o', 'm', 'p', 'r', 'e', 's', 's'] from rfl] at hd
  simp at hd

theorem tempFilePath_ne_compress (tmpdir : String) (bytes : List Nat) :
    tempFilePath tmpdir bytes ≠ "--compress" := by
  intro h
  have hmem : '/' ∈ (tempFilePath tmpdir bytes).data := by
    simp [tempFilePath, nodeJoin, String.data_append]
  rw [h] at hmem
  exact absurd hmem (by decide)

theorem not_mem_if_single {x y : String} {c : Prop} [Decidable c]
    (hxy : y ≠ x) : x ∉ (if c then [y] else ([] : List String)) := by
  split
  · simp only [List.mem_singleton]
    exact fun hh => hxy hh.symm
  · simp

theorem not_mem_if_pair {x a b : String} {c : Prop} [Decidable c]
    (ha : a ≠ x) (hb : b ≠ x) :
    x ∉ (if c then [a, b] else ([] : List String)) := by
  split
  · simp only [List.mem_cons, List.mem_singleton, List.not_mem_nil, or_false]
    rintro (hh | hh)
    · exact ha hh.symm
    · exact hb hh.symm
  · simp

theorem hexDigit_inj : ∀ a, a < 16 → ∀ b, b < 16 →
    hexDigit a = hexDigit b → a = b := by
  decide

theorem byteToHex_inj (a b : Nat) (ha : a < 256) (hb : b < 256)
    (h : byteToHex a = byteToHex b) : a = b := by
  unfold byteToHex at h
  simp only [List.cons.injEq, and_true] at h
  have h1 := hexDigit_inj (a / 16) (by omega) (b / 16) (by omega) h.1
  have h2 := hexDigit_inj (a % 16) (by omega) (b % 16) (by omega) h.2
  omega

theorem bytesToHex_data (b : Nat) (rest : List Nat) :
    (bytesToHex (b :: rest)).data = byteToHex b ++ (bytesToHex rest).data := by
  simp [bytesToHex]

theorem bytesToHex_length (bs : List Nat) :
    (bytesToHex bs).length = 2 * bs.length := by
  induction bs with
  | nil => rfl
  | cons b rest ih =>
      have : (bytesToHex (b :: rest)).length =
          (byteToHex b).length + (bytesToHex rest).length := by
        rw [show (bytesToHex (b :: rest)).length =
            (bytesToHex (b :: rest)).data.length from rfl]
        rw [bytesToHex_data, List.length_append]
        rfl
      rw [this, ih]
      simp [byteToHex]
      omega

theorem bytesToHex_inj : ∀ (bs1 bs2 : List Nat), bs1.length = bs2.length →
    (∀ b ∈ bs1, b < 256) → (∀ b ∈ bs2, b < 256) →
    bytesToHex bs1 = bytesToHex bs2 → bs1 = bs2 := by
  intro bs1
  induction bs1 with
  | nil =>
      intro bs2 hlen _ _ _
      cases bs2 with
      | nil => rfl
      | cons b rest => simp at hlen
  | cons a rest ih =>
      intro bs2 hlen h1 h2 heq
      cases bs2 with
      | nil => simp at hlen
      | cons b rest2 =>
          have hdata := congrArg String.data heq
          rw [bytesToHex_data, bytesToHex_data] at hdata
          unfold byteToHex at hdata
          simp only [List.cons_append, List.nil_append, List.cons.injEq] at hdata
          obtain ⟨e1, e2, e3⟩ := hdata
          have ha : a < 256 := h1 a (List.mem_cons_self a rest)
          have hb : b < 256 := h2 b (List.mem_cons_self b rest2)
          have hab : a = b := by
            have d1 := hexDigit_inj (a / 16) (by omega) (b / 16) (by omega) e1
            have d2 := hexDigit_inj (a % 16) (by omega) (b % 16) (by omega) e2
            omega
          have hrest : rest = rest2 := by
            refine ih rest2 (by simpa using hlen) ?_ ?_ ?_
            · exact fun x hx => h1 x (List.mem_cons_of_mem a hx)
            · exact fun x hx => h2 x (List.mem_cons_of_mem b hx)
            · cases hs1 : bytesToHex rest
              cases hs2 : bytesToHex rest2
              have := e3
              rw [hs1, hs2] at this
              simp at this
              rw [this]
          rw [hab, hrest]

theorem shellFieldsAux_quoted (cs : List Char) :
    ∀ cur : List Char, '"' ∉ cs → ¬(cur = [] ∧ cs = []) →
    shellFieldsAux (cs ++ ['"']) true cur = [cur.reverse ++ cs] := by
  induction cs with
  | nil =>
      intro cur _ hne
      have hcur : cur ≠ [] := fun hc => hne ⟨hc, rfl⟩
      simp [shellFieldsAux, hcur]
  | cons c restC ih =>
      intro cur hq _
      have hc : ¬(c = '"') := by
        intro hc
        exact hq (by rw [hc]; exact List.mem_cons_self _ _)
      have hq2 : '"' ∉ restC := fun hx => hq (List.mem_cons_of_mem c hx)
      rw [List.cons_append]
      rw [show shellFieldsAux (c :: (restC ++ ['"'])) true cur =
          shellFieldsAux (restC ++ ['"']) true (c :: cur) from by
        simp [shellFieldsAux, hc]]
      rw [ih (c :: cur) hq2 (by simp)]
      simp

theorem shellTokens_quoted (v : String) (hq : '"' ∉ v.data) (hv : v ≠ "") :
    shellTokens ("\"" ++ v ++ "\"") = [v] := by
  have hvd : ¬(([] : List Char) = [] ∧ v.data = []) := by
    rintro ⟨_, hd⟩
    apply hv
    cases v with
    | mk data => simp at hd; rw [hd]
  unfold shellTokens
  rw [show ("\"" ++ v ++ "\"").data = '"' :: (v.data ++ ['"']) from by
    simp [String.data_append]]
  rw [show shellFieldsAux ('"' :: (v.data ++ ['"'])) false [] =
      shellFieldsAux (v.data ++ ['"']) true [] from by simp [shellFieldsAux]]
  rw [shellFieldsAux_quoted v.data [] hq hvd]
  simp

/-- C5: the constructed command contains `--compress` iff `compress` is
`true` (never a `--compress=false` form — no part other than the flag can
equal `--compress` under the stated side conditions); `include` and
`ignore` values are passed quoted, and a quoted value without embedded
double quotes reaches the shell as a single token; the parts always end
with `--output` followed by the temporary path, which lives in the system
temporary directory and embeds the hex encoding of the 8 random bytes —
an encoding that is length-16 and injective, so distinct random bytes
give distinct names. -/
theorem c5_command_construction (args : RepomixArgs) (tmpdir : String)
    (bytes : List Nat)
    (hp : ∀ p, args.path = some p → p ≠ "--compress")
    (hr : ∀ r, args.remote = some r → r ≠ "--compress") :
    (("--compress" ∈ commandParts args (tempFilePath tmpdir bytes)) ↔
        args.compress = some true)
    ∧ (∀ v, args.includeGlob = some v → v ≠ "" →
        ["--include", "\"" ++ v ++ "\""] <:+:
          commandParts args (tempFilePath tmpdir bytes))
    ∧ (∀ v, args.ignoreGlob = some v → v ≠ "" →
        ["--ignore", "\"" ++ v ++ "\""] <:+:
          commandParts args (tempFilePath tmpdir bytes))
    ∧ (∃ front, commandParts args (tempFilePath tmpdir bytes) =
        front ++ ["--output", tempFilePath tmpdir bytes])
    ∧ tempFilePath tmpdir bytes =
        tmpdir ++ "/" ++ ("repomix-" ++ bytesToHex bytes ++ ".txt")
    ∧ (bytes.length = 8 → (bytesToHex bytes).length = 16)
    ∧ (∀ bytes2, bytes.length = bytes2.length → (∀ b ∈ bytes, b < 256) →
        (∀ b ∈ bytes2, b < 256) → bytesToHex bytes = bytesToHex bytes2 →
        bytes = bytes2)
    ∧ (∀ v : String, '"' ∉ v.data → v ≠ "" →
        shellTokens ("\"" ++ v ++ "\"") = [v]) := by
  have hpv : args.path.getD "" ≠ "--compress" := by
    rcases hP : args.path with _ | p
    · decide
    · exact hp p hP
  have hrv : args.remote.getD "" ≠ "--compress" := by
    rcases hR : args.remote with _ | r
    · decide
    · exact hr r hR
  have hstyle : "--compress" ∉ (match args.style with
      | some s => ["--style", Style.toStr s]
      | none => ([] : List String)) := by
    rcases args.style with _ | st
    · simp
    · simp only [List.mem_cons, List.mem_singleton, List.not_mem_nil, or_false]
      rintro (hh | hh)
      · exact absurd hh (by decide)
      · exact styleToStr_ne_compress st hh.symm
  refine ⟨?_, ?_, ?_, ?_, rfl, ?_, bytesToHex_inj bytes, shellTokens_quoted⟩
  · constructor
    · intro h
      unfold commandParts at h
      rcases List.mem_append.mp h with h1 | h1
      · rcases List.mem_append.mp h1 with h2 | h2
        · rcases List.mem_append.mp h2 with h3 | h3
          · rcases List.mem_append.mp h3 with h4 | h4
            · rcases List.mem_append.mp h4 with h5 | h5
              · rcases List.mem_append.mp h5 with h6 | h6
                · rcases List.mem_append.mp h6 with h7 | h7
                  · exact absurd h7 (by decide)
                  · exact absurd h7 (not_mem_if_single hpv)
                · exact absurd h6 hstyle
              · rcases hcb : truthyBool args.compress with _ | _
                · rw [hcb] at h5
                  simp at h5
                · exact truthyBool_eq_true_iff.mp hcb
            · exact absurd h4
                (not_mem_if_pair (by decide)
                  (quoted_ne_compress (args.includeGlob.getD "")))
          · exact absurd h3
              (not_mem_if_pair (by decide)
                (quoted_ne_compress (args.ignoreGlob.getD "")))
        · exact absurd h2 (not_mem_if_pair (by decide) hrv)
      · have := tempFilePath_ne_compress tmpdir bytes
        simp only [List.mem_cons, List.mem_singleton, List.not_mem_nil,
          or_false] at h1
        rcases h1 with hh | hh
        · exact absurd hh (by decide)
        · exact absurd hh.symm this
    · intro hc
      have hcb : truthyBool args.compress = true := truthyBool_eq_true_iff.mpr hc
      unfold commandParts
      rw [hcb]
      simp
  · intro v hv hvne
    have hvb : (v == "") = false := by
      rw [beq_eq_false_iff_ne]
      exact hvne
    refine ⟨["npx", "repomix"]
        ++ (if truthyStr args.path then [args.path.getD ""] else [])
        ++ (match args.style with
            | some s => ["--style", Style.toStr s]
            | none => [])
        ++ (if truthyBool args.compress then ["--compress"] else []),
      (if truthyStr args.ignoreGlob then
          ["--ignore", "\"" ++ args.ignoreGlob.getD "" ++ "\""] else [])
        ++ (if truthyStr args.remote then
            ["--remote", args.remote.getD ""] else [])
        ++ ["--output", tempFilePath tmpdir bytes], ?_⟩
    unfold commandParts
    rw [hv]
    simp [truthyStr, hvb]
  · intro v hv hvne
    have hvb : (v == "") = false := by
      rw [beq_eq_false_iff_ne]
      exact hvne
    refine ⟨["npx", "repomix"]
        ++ (if truthyStr args.path then [args.path.getD ""] else [])
        ++ (match args.style with
            | some s => ["--style", Style.toStr s]
            | none => [])
        ++ (if truthyBool args.compress then ["--compress"] else [])
        ++ (if truthyStr args.includeGlob then
            ["--include", "\"" ++ args.includeGlob.getD "" ++ "\""] else []),
      (if truthyStr args.remote then
          ["--remote", args.remote.getD ""] else [])
        ++ ["--output", tempFilePath tmpdir bytes], ?_⟩
    unfold commandParts
    rw [hv]
    simp [truthyStr, hvb]
  · refine ⟨["npx", "repomix"]
        ++ (if truthyStr args.path then [args.path.getD ""] else [])
        ++ (match args.style with
            | some s => ["--style", Style.toStr s]
            | none => [])
        ++ (if truthyBool args.compress then ["--compress"] else [])
        ++ (if truthyStr args.includeGlob then
            ["--include", "\"" ++ args.includeGlob.getD "" ++ "\""] else [])
        ++ (if truthyStr args.ignoreGlob then
            ["--ignore", "\"" ++ args.ignoreGlob.getD "" ++ "\""] else [])
        ++ (if truthyStr args.remote then
            ["--remote", args.remote.getD ""] else []), ?_⟩
    unfold commandParts
    simp
  · intro h8
    rw [bytesToHex_length, h8]

/-- Witness for C5: a concrete argument record exercising every
hypothesis. -/
theorem c5_command_construction_witness :
    ("--compress" ∈ commandParts c10AllArgs
        (tempFilePath "/tmp" [0, 1, 2, 3, 4, 5, 6, 7]) ↔
      c10AllArgs.compress = some true)
    ∧ ["--include", "\"a b\""] <:+:
        commandParts c10AllArgs (tempFilePath "/tmp" [0, 1, 2, 3, 4, 5, 6, 7])
    ∧ (bytesToHex [0, 1, 2, 3, 4, 5, 6, 7]).length = 16
    ∧ shellTokens ("\"" ++ "a b,*.ts" ++ "\"") = ["a b,*.ts"] := by
  have h := c5_command_construction c10AllArgs "/tmp" [0, 1, 2, 3, 4, 5, 6, 7]
    (by intro p hp; rw [show c10AllArgs.path = some "my dir" from rfl] at hp;
        injection hp with hp; rw [← hp]; decide)
    (by intro r hr; rw [show c10AllArgs.remote = some "r" from rfl] at hr;
        injection hr with hr; rw [← hr]; decide)
  refine ⟨h.1, ?_, h.2.2.2.2.2.1 rfl, ?_⟩
  · exact h.2.1 "a b" rfl (by decide)
  · exact h.2.2.2.2.2.2.2 "a b,*.ts" (by decide) (by decide)

end RepomixMCP
